import Mathlib

/-!
Verification of the compact-block log analysis pipeline.

The development shallowly embeds the two core source modules:

* `logkicker.py` — the line tokenizer (`split(' ', 1)` + `METADATA_PATTERN` +
  `BRACKET_PATTERN`) and the metadata disambiguator
  (`LogEntry.process_line_metadata`);
* `compactblocks/logsparser.py` — the line classifier (`LOG_PATTERNS`,
  `we_care`) and the correlation engine (`parse_cb_log`).

Modelling conventions:

* Python exceptions (`ValueError`, `KeyError`, `IndexError`, `AttributeError`,
  `AssertionError`) are modelled with an `Except PyErr` monad; an uncaught
  exception aborts the run exactly as it aborts `parse_cb_log`.
* Python regular expressions are modelled as executable character-list
  matchers over their ASCII extent (the logs under analysis are ASCII).  Each
  greedy character class in the source patterns is followed by a character
  outside the class, so maximal-munch matching coincides with the regex
  backtracking semantics.
* `datetime` values are kept as the raw timestamp strings: the source calls
  `dateutil.parser.parse(time_str)` only to wrap the string, and the spec
  treats timestamps as opaque lexically-sortable strings.  `LogEntry.time()`
  is therefore modelled as returning `time_str` itself.
* Python's aliased mutable `BlockSent` objects are modelled by a store
  (`send_store : List BlockSent`) addressed by index; the pending slots and
  the `blocks_sent` map hold indices, reproducing the sharing of the source.
-/

set_option maxRecDepth 100000

/-- The Python exceptions that the modelled code can raise. -/
inductive PyErr where
  | valueError
  | keyError
  | indexError
  | attributeError
  | assertionError
deriving DecidableEq, Repr

/-- ASCII extent of Python's `\s` (also used for `str.strip`). -/
def isPySpace (c : Char) : Bool :=
  c = ' ' || c = '\t' || c = '\n' || c = '\r' || c = '\x0b' || c = '\x0c'

/-- ASCII decimal digit, the ASCII extent of `\d`. -/
def isPyDigit (c : Char) : Bool :=
  '0' ≤ c && c ≤ '9'

/-- Lowercase hexadecimal digit: the character class `[0-9a-f]`. -/
def isHexLower (c : Char) : Bool :=
  isPyDigit c || ('a' ≤ c && c ≤ 'f')

/-- ASCII extent of Python's `\w`: letters, digits and underscore. -/
def isPyWord (c : Char) : Bool :=
  c.isAlpha || isPyDigit c || c = '_'

/-- Drop a maximal run of whitespace: one greedy `\s*`. -/
def dropWs : List Char → List Char
  | [] => []
  | c :: cs => if isPySpace c then dropWs cs else c :: cs

/-- `logline.split(sep, 1)` when it succeeds in producing two parts:
the text before the first `sep` and everything after it.  `none` when `sep`
does not occur (in the source, unpacking the one-element result raises
`ValueError`). -/
def splitOnChar (sep : Char) : List Char → Option (List Char × List Char)
  | [] => none
  | c :: cs =>
    if c = sep then some ([], cs)
    else match splitOnChar sep cs with
      | none => none
      | some (t, r) => some (c :: t, r)

/-- The character class `[^\]]`: anything but a closing bracket. -/
def notRBracket (d : Char) : Bool := d ≠ ']'

/-- One bracket group `\[[^\]]+\]`: an opening bracket, a non-empty run of
non-`]` characters, and the closing bracket.  Returns the group's content and
the rest of the input. -/
def parseGroup : List Char → Option (List Char × List Char)
  | [] => none
  | c :: cs =>
    if c = '[' then
      match cs.dropWhile notRBracket with
      | ']' :: rest =>
        if cs.takeWhile notRBracket = [] then none
        else some (cs.takeWhile notRBracket, rest)
      | _ => none
    else none

/-- Fuelled worker for `metadataSplit`; the fuel only serves termination and
is always sufficient (`parseGroup` consumes at least three characters). -/
def metadataSplitF : Nat → List Char → List (List Char) × List Char
  | 0, cs => ([], dropWs cs)
  | fuel + 1, cs =>
    match parseGroup (dropWs cs) with
    | some (g, rest) =>
      let p := metadataSplitF fuel rest
      (g :: p.1, p.2)
    | none => ([], dropWs cs)

/-- `METADATA_PATTERN = ^(\s*(?:\[[^\]]+\]\s*)*)(.*?)$` followed by
`BRACKET_PATTERN.findall` on group 1: the longest prefix made of
whitespace-interleaved bracket groups is the metadata (returned as the list
of group contents), everything after it is the body. -/
def metadataSplit (cs : List Char) : List (List Char) × List Char :=
  metadataSplitF cs.length cs

/-- `LOGGINGCATEGORY_STRINGS` from the source (a frozenset of the recognized
logging category names). -/
def LOGGINGCATEGORY_STRINGS : List String :=
  ["all", "net", "tor", "mempool", "http", "bench", "zmq", "walletdb", "rpc",
   "estimatefee", "addrman", "selectcoins", "reindex", "cmpctblock", "rand",
   "prune", "proxy", "mempoolrej", "libevent", "coindb", "qt", "leveldb",
   "validation", "i2p", "ipc", "lock", "blockstorage", "txreconciliation",
   "scan", "txpackages"]

/-- `THREADNAME_STRINGS` from the source. -/
def THREADNAME_STRINGS : List String :=
  ["init", "http", "shutoff", "capnp-loop", "main", "qt-clientmodl",
   "qt-init", "qt-rpcconsole", "qt-walletctrl", "test", "initload",
   "mapport", "net", "dnsseed", "addcon", "opencon", "msghand",
   "i2paccept", "torcontrol"]

/-- `LOGCATEGORY_PATTERN.match`: the whole string must be a recognized
category name, optionally followed by `:` and a non-empty `\w+` log level.
Returns `(category, optional loglevel)`.  The alternation order of the
frozenset join is irrelevant because the pattern is anchored on both sides
and no category name contains a colon. -/
def logcategoryMatch (s : String) : Option (String × Option String) :=
  match splitOnChar ':' s.data with
  | none => if LOGGINGCATEGORY_STRINGS.contains s then some (s, none) else none
  | some (c, rest) =>
    let cat := String.mk c
    if LOGGINGCATEGORY_STRINGS.contains cat && !rest.isEmpty && rest.all isPyWord
    then some (cat, some (String.mk rest))
    else none

/-- Literal-prefix matcher: consume exactly `pat` from the front of `s`. -/
def dropLit : List Char → List Char → Option (List Char)
  | [], s => some s
  | _ :: _, [] => none
  | p :: ps, c :: cs => if c = p then dropLit ps cs else none

/-- `NUMEROUS_THREADNAME_PATTERNS`: `^scriptch\.\d+$` or `^httpworker\.\d+$`. -/
def numerousThreadnameMatch (s : String) : Bool :=
  let tail := fun (pre : String) =>
    match dropLit pre.data s.data with
    | some ds => !ds.isEmpty && ds.all isPyDigit
    | none => false
  tail "scriptch." || tail "httpworker."

/-- Numeric value of a run of ASCII digits (the effect of Python `int` on a
`\d+` capture). -/
def natOfDigits (ds : List Char) : Nat :=
  ds.foldl (fun n c => n * 10 + (c.toNat - '0'.toNat)) 0

/-- `SOURCELOCATION_PATTERN.match`: `^([^:]*\.(?:cpp|h)):(\d+)$`.  The file
part is everything before the first colon and must end in `.cpp` or `.h`;
the rest must be a non-empty digit run.  Returns `(file, line number)`. -/
def sourcelocationMatch (s : String) : Option (String × Nat) :=
  match splitOnChar ':' s.data with
  | none => none
  | some (f, rest) =>
    if (String.mk f).endsWith ".cpp" || (String.mk f).endsWith ".h" then
      if !rest.isEmpty && rest.all isPyDigit
      then some (String.mk f, natOfDigits rest)
      else none
    else none

/-- `FUNCTIONNAME_PATTERN.match`: `^(?:[a-zA-Z_][a-zA-Z0-9_]*|operator.+)$`.
Either an identifier, or the literal `operator` followed by at least one
character (`.` excludes newlines, which trimmed log lines cannot contain). -/
def functionnameMatch (s : String) : Bool :=
  (match s.data with
   | c :: rest => (c.isAlpha || c = '_') && rest.all isPyWord
   | [] => false)
  || (match dropLit "operator".data s.data with
      | some rest => !rest.isEmpty && rest.all (fun c => c ≠ '\n')
      | none => false)

/-- `LogEntry.Metadata` from the source, with `time_str` kept as the raw
timestamp token. -/
structure Metadata where
  time_str : String
  category : Option String := none
  thread : Option String := none
  file : Option String := none
  line_num : Option Nat := none
  function : Option String := none
  loglevel : Option String := none
  wallet_name : Option String := none
deriving DecidableEq, Repr

/-- A `LogEntry` object.  `metadata` and `body` are `none` when the
corresponding Python attribute was never assigned (the malformed-line early
return leaves both unset); reading an unset attribute raises
`AttributeError`.  `data` is assigned by `we_care` (its pre-assignment reads
never occur in the modelled code paths). -/
structure LogEntry where
  metadata : Option Metadata
  body : Option String
  data : List (String × String)
deriving DecidableEq, Repr

/-- Python `list.pop()`: the last element and the rest; `IndexError` on an
empty list. -/
def pyPop (ms : List String) : Except PyErr (String × List String) :=
  match ms.getLast? with
  | none => .error .indexError
  | some x => .ok (x, ms.dropLast)

/-- The body of the `for metadatum in matches` loop of
`process_line_metadata`: classify one remaining bracket group as thread,
source location, or function name, in the source's precedence order;
an unrecognized group raises `ValueError`.  Later assignments to the same
slot overwrite earlier ones, exactly as in the source. -/
def classifyMetadatum (md : Metadata) (m : String) : Except PyErr Metadata :=
  if THREADNAME_STRINGS.contains m then .ok { md with thread := some m }
  else if numerousThreadnameMatch m then .ok { md with thread := some m }
  else match sourcelocationMatch m with
    | some (f, n) => .ok { md with file := some f, line_num := some n }
    | none =>
      if functionnameMatch m then .ok { md with function := some m }
      else .error .valueError

/-- The classification loop over the remaining (non-rightmost) groups. -/
def classifyAll (md : Metadata) : List String → Except PyErr Metadata
  | [] => .ok md
  | m :: ms => do classifyAll (← classifyMetadatum md m) ms

/-- The rightmost-first disambiguation of `process_line_metadata`, lines
146–181 of the source: pop the rightmost group; if it is not a category it
is a wallet name and the next-rightmost group must be a category
(`ValueError` otherwise; popping from an empty list raises `IndexError`);
then classify the remaining groups left to right. -/
def disambiguate (t : String) (ms : List String) : Except PyErr Metadata := do
  let (rs, ms1) ← pyPop ms
  match logcategoryMatch rs with
  | some (c, lv) =>
    classifyAll { time_str := t, category := some c, loglevel := lv } ms1
  | none =>
    let (rs2, ms2) ← pyPop ms1
    match logcategoryMatch rs2 with
    | some (c, lv) =>
      classifyAll
        { time_str := t, category := some c, loglevel := lv,
          wallet_name := some rs } ms2
    | none => .error .valueError

/-- `LogEntry.process_line_metadata` on a character list: split off the
timestamp at the first space (no space: print a warning and return with the
attributes unset), split the metadata prefix from the body, and either
return a timestamp-only `Metadata` (no bracket groups) or disambiguate. -/
def processLineChars (cs : List Char) : Except PyErr LogEntry :=
  match splitOnChar ' ' cs with
  | none => .ok { metadata := none, body := none, data := [] }
  | some (t, rem) =>
    let p := metadataSplit rem
    let body := String.mk p.2
    match p.1 with
    | [] => .ok { metadata := some { time_str := String.mk t },
                  body := some body, data := [] }
    | gs => do
      let md ← disambiguate (String.mk t) (gs.map String.mk)
      .ok { metadata := some md, body := some body, data := [] }

/-- `LogEntry.__init__` / `process_line_metadata` on a string. -/
def process_line_metadata (s : String) : Except PyErr LogEntry :=
  processLineChars s.data

/-- `ReasonsToCare` from `compactblocks/logsparser.py`. -/
inductive ReasonsToCare where
  | WE_DONT
  | CB_SEND
  | CB_RECEIVE
  | CB_RECONSTRUCTION
  | CB_TO_ANNOUNCE
  | CB_REQUESTED
  | NET_MAX_SEND
deriving DecidableEq, Repr

/-- Take a non-empty maximal run of characters in class `p` (a greedy
one-or-more character class; in every source pattern the class is followed
by a character outside it, so maximal munch is exact). -/
def takeClass1 (p : Char → Bool) (s : List Char) : Option (List Char × List Char) :=
  match s.takeWhile p with
  | [] => none
  | t => some (t, s.dropWhile p)

/-- Second half of the `CB_RECONSTRUCTION` pattern, from the
`(\d+) from extra pool\) and (\d+) txn \((\d+) bytes\) requested` captures
on: returns the extra-pool, requested-txn and requested-bytes captures. -/
def matchReconstructionTail (s : List Char) :
    Option (List Char × List Char × List Char) := do
  let (ec, s) ← takeClass1 isPyDigit s
  let s ← dropLit " from extra pool) and ".data s
  let (rc, s) ← takeClass1 isPyDigit s
  let s ← dropLit " txn (".data s
  let (rb, s) ← takeClass1 isPyDigit s
  let _ ← dropLit " bytes) requested".data s
  some (ec, rc, rb)

/-- The `CB_RECONSTRUCTION` pattern: `Successfully reconstructed block
([0-9a-f]+) with (\d+) txn prefilled, (\d+) txn from mempool (incl at least
(\d+) from extra pool) and (\d+) txn ((\d+) bytes) requested`, as a prefix
match producing `groupdict()` (split in two definitions to keep the
compiled match terms small). -/
def matchReconstruction (b : List Char) : Option (List (String × String)) := do
  let s ← dropLit "Successfully reconstructed block ".data b
  let (h, s) ← takeClass1 isHexLower s
  let s ← dropLit " with ".data s
  let (pc, s) ← takeClass1 isPyDigit s
  let s ← dropLit " txn prefilled, ".data s
  let (mc, s) ← takeClass1 isPyDigit s
  let s ← dropLit " txn from mempool (incl at least ".data s
  let (ec, rc, rb) ← matchReconstructionTail s
  some [("blockhash", String.mk h), ("prefill_count", String.mk pc),
        ("mempool_count", String.mk mc), ("extrapool_count", String.mk ec),
        ("requested_count", String.mk rc), ("requested_bytes", String.mk rb)]

/-- The `CB_RECEIVE` pattern: `Initialized PartiallyDownloadedBlock for
block ([0-9a-f]+) using a cmpctblock of (\d+) bytes`. -/
def matchReceive (b : List Char) : Option (List (String × String)) := do
  let s ← dropLit "Initialized PartiallyDownloadedBlock for block ".data b
  let (h, s) ← takeClass1 isHexLower s
  let s ← dropLit " using a cmpctblock of ".data s
  let (sz, s) ← takeClass1 isPyDigit s
  let _ ← dropLit " bytes".data s
  some [("blockhash", String.mk h), ("cmpctblock_bytes", String.mk sz)]

/-- The `CB_SEND` pattern: `sending cmpctblock ((\d+) bytes) peer=(\d+)`. -/
def matchSend (b : List Char) : Option (List (String × String)) := do
  let s ← dropLit "sending cmpctblock (".data b
  let (sz, s) ← takeClass1 isPyDigit s
  let s ← dropLit " bytes) peer=".data s
  let (p, _) ← takeClass1 isPyDigit s
  some [("cmpctblock_bytes", String.mk sz), ("peer_id", String.mk p)]

/-- The `CB_TO_ANNOUNCE` pattern: `PeerManager::NewPoWValidBlock sending
header-and-ids ([0-9a-f]+) to peer=(\d+)`. -/
def matchToAnnounce (b : List Char) : Option (List (String × String)) := do
  let s ← dropLit "PeerManager::NewPoWValidBlock sending header-and-ids ".data b
  let (h, s) ← takeClass1 isHexLower s
  let s ← dropLit " to peer=".data s
  let (p, _) ← takeClass1 isPyDigit s
  some [("blockhash", String.mk h), ("peer_id", String.mk p)]

/-- The `CB_REQUESTED` pattern: `received getdata for: cmpctblock
([0-9a-f]+) peer=(\d+)`. -/
def matchRequested (b : List Char) : Option (List (String × String)) := do
  let s ← dropLit "received getdata for: cmpctblock ".data b
  let (h, s) ← takeClass1 isHexLower s
  let s ← dropLit " peer=".data s
  let (p, _) ← takeClass1 isPyDigit s
  some [("blockhash", String.mk h), ("peer_id", String.mk p)]

/-- The `NET_MAX_SEND` pattern: `\s*- Max send per-rtt: (\d+) bytes`. -/
def matchMaxSend (b : List Char) : Option (List (String × String)) := do
  let s ← dropLit "- Max send per-rtt: ".data (dropWs b)
  let (m, s) ← takeClass1 isPyDigit s
  let _ ← dropLit " bytes".data s
  some [("max_send_bytes", String.mk m)]

/-- `LOG_PATTERNS`, in source order: reason, required category, and the
body matcher (modelling `regex.match` + `groupdict()`). -/
def LOG_PATTERNS :
    List (ReasonsToCare × String × (List Char → Option (List (String × String)))) :=
  [(.CB_RECONSTRUCTION, "cmpctblock", matchReconstruction),
   (.CB_RECEIVE, "cmpctblock", matchReceive),
   (.CB_SEND, "net", matchSend),
   (.CB_TO_ANNOUNCE, "net", matchToAnnounce),
   (.CB_REQUESTED, "net", matchRequested),
   (.NET_MAX_SEND, "net", matchMaxSend)]

/-- The pattern-table loop of `we_care`, a function of the entry's category
and body alone.  The body attribute is only read once a pattern's category
matches (reading it unset raises `AttributeError`).  Returns the reason and,
on a match, the `groupdict()` to be stored in `entry.data`. -/
def weCareGo :
    List (ReasonsToCare × String × (List Char → Option (List (String × String)))) →
    Option String → Option String →
    Except PyErr (ReasonsToCare × Option (List (String × String)))
  | [], _, _ => .ok (.WE_DONT, none)
  | (r, pc, pm) :: ps, cat, bd =>
    if cat = some pc then
      match bd with
      | none => .error .attributeError
      | some b =>
        match pm b.data with
        | some d => .ok (r, some d)
        | none => weCareGo ps cat bd
    else weCareGo ps cat bd

/-- `we_care(entry)`: reads `entry.metadata.category` (raising
`AttributeError` when `metadata` was never assigned), walks `LOG_PATTERNS`,
and on the first match stores the captures in `entry.data` and returns the
matching entry; otherwise `(WE_DONT, None)`. -/
def we_care (e : LogEntry) :
    Except PyErr (ReasonsToCare × Option LogEntry) :=
  match e.metadata with
  | none => .error .attributeError
  | some md =>
    match weCareGo LOG_PATTERNS md.category e.body with
    | .error er => .error er
    | .ok (r, some d) => .ok (r, some { e with data := d })
    | .ok (r, none) => .ok (r, none)

/-- `BlockReceived` from the source.  The never-written
`reconstruction_time_ns` float field (only computed downstream by
`create_dataframes`, outside the modelled core) is omitted. -/
structure BlockReceived where
  time_received : Option String := none
  time_reconstructed : Option String := none
  received_size : Nat := 0
  bytes_missing : Nat := 0
  received_tx_missing : Nat := 0
deriving DecidableEq, Repr

/-- `BlockSent` from the source.  `block_received` is an object reference
into `blocks_received`; it is modelled by the block-hash key it was looked
up at (no modelled code path reads through it). -/
structure BlockSent where
  block_received : String
  peer_id : Nat
  time_sent : Option String := none
  send_size : Nat := 0
  tcp_window_size : Nat := 0
deriving DecidableEq, Repr

/-- The mutable state of `parse_cb_log`'s loop.  `send_store` is the heap of
`BlockSent` objects (Python objects are aliased between `blocks_sent` and
the two pending slots, so the map and the slots hold store indices). -/
structure CBState where
  blocks_received : List (String × BlockReceived) := []
  blocks_sent : List (String × List Nat) := []
  send_store : List BlockSent := []
  pending_block_send : Option Nat := none
  pending_max_send : Option Nat := none
  hash_pending_reconstruction : Option String := none
deriving DecidableEq, Repr

/-- The initial state of a `parse_cb_log` run. -/
def initCBState : CBState := {}

/-- `d[k]` lookup on an insertion-ordered dict modelled as an association
list with unique keys. -/
def lookupD {α : Type} (l : List (String × α)) (k : String) : Option α :=
  (l.find? (fun p => p.1 = k)).map (fun p => p.2)

/-- `d[k] = v`: replace in place when the key exists (Python dicts keep the
original insertion position), append otherwise. -/
def insertD {α : Type} : List (String × α) → String → α → List (String × α)
  | [], k, v => [(k, v)]
  | (k', v') :: rest, k, v =>
    if k' = k then (k, v) :: rest else (k', v') :: insertD rest k v

/-- `del d[k]` (the key is present at most once). -/
def eraseD {α : Type} : List (String × α) → String → List (String × α)
  | [], _ => []
  | (k', v') :: rest, k =>
    if k' = k then rest else (k', v') :: eraseD rest k

/-- `defaultdict(list)`: `d[k].append(v)` creates the empty list on a
missing key. -/
def appendD : List (String × List Nat) → String → Nat → List (String × List Nat)
  | [], k, v => [(k, [v])]
  | (k', vs) :: rest, k, v =>
    if k' = k then (k, vs ++ [v]) :: rest else (k', vs) :: appendD rest k v

/-- `what.data[k]`: `KeyError` when the key is absent. -/
def pyGet (d : List (String × String)) (k : String) : Except PyErr String :=
  match lookupD d k with
  | some v => .ok v
  | none => .error .keyError

/-- Python `int(s)` on the modelled inputs: the numeric value of a digit
string, `ValueError` otherwise (regex captures passed to `int` in the source
are always `\d+` matches). -/
def pyInt (s : String) : Except PyErr Nat :=
  if !s.data.isEmpty && s.data.all isPyDigit
  then .ok (natOfDigits s.data)
  else .error .valueError

/-- `what.time()` = `dateutil.parser.parse(self.metadata.time_str)`,
modelled as the raw timestamp string (see the header comment);
`AttributeError` when `metadata` was never assigned. -/
def pyTime (e : LogEntry) : Except PyErr String :=
  match e.metadata with
  | some md => .ok md.time_str
  | none => .error .attributeError

/-- The `CB_RECEIVE` arm of `parse_cb_log`'s match: when a reconstruction is
still pending the orphaned receive record is deleted (`del` raises
`KeyError` on a missing key); the pending-reconstruction slot then moves to
the new hash and a fresh `BlockReceived` is inserted. -/
def stepReceive (s : CBState) (what : LogEntry) : Except PyErr CBState := do
  let s1 ← match s.hash_pending_reconstruction with
    | none => pure s
    | some hp =>
      match lookupD s.blocks_received hp with
      | none => .error .keyError
      | some _ => pure { s with blocks_received := eraseD s.blocks_received hp }
  let h ← pyGet what.data "blockhash"
  let t ← pyTime what
  let sz ← pyInt (← pyGet what.data "cmpctblock_bytes")
  .ok { s1 with
        hash_pending_reconstruction := some h,
        blocks_received :=
          insertD s1.blocks_received h
            { time_received := some t, received_size := sz } }

/-- The `CB_RECONSTRUCTION` arm: a hash that is not the pending one is
reported with a warning and skipped without touching the state; otherwise
the receive record is updated in place and the pending slot cleared. -/
def stepReconstruction (s : CBState) (what : LogEntry) : Except PyErr CBState := do
  let h ← pyGet what.data "blockhash"
  if s.hash_pending_reconstruction ≠ some h then
    .ok s
  else do
    let b ← match lookupD s.blocks_received h with
      | some b => pure b
      | none => .error .keyError
    let rc ← pyInt (← pyGet what.data "requested_count")
    let rb ← pyInt (← pyGet what.data "requested_bytes")
    let t ← pyTime what
    .ok { s with
          blocks_received :=
            insertD s.blocks_received h
              { b with received_tx_missing := rc, bytes_missing := rb,
                       time_reconstructed := some t },
          hash_pending_reconstruction := none }

/-- The shared `CB_TO_ANNOUNCE | CB_REQUESTED` arm: an announce or request
for a hash with no receive record is dropped; otherwise a fresh `BlockSent`
is appended to the hash's send list and becomes the pending send. -/
def stepAnnounce (s : CBState) (what : LogEntry) : Except PyErr CBState := do
  let h ← pyGet what.data "blockhash"
  match lookupD s.blocks_received h with
  | none => .ok s
  | some _ => do
    let p ← pyInt (← pyGet what.data "peer_id")
    let idx := s.send_store.length
    .ok { s with
          send_store := s.send_store ++ [{ block_received := h, peer_id := p }],
          blocks_sent := appendD s.blocks_sent h idx,
          pending_block_send := some idx }

/-- The `CB_SEND` arm: no pending announce/request drops the event; the
`assert pending_block_send.peer_id == int(...)` models as an
`AssertionError` on mismatch; on match the pending record gains its size
and send time and moves to the pending-window slot.  (A dangling store
index cannot arise from the Python objects; it maps to `KeyError`.) -/
def stepSend (s : CBState) (what : LogEntry) : Except PyErr CBState :=
  match s.pending_block_send with
  | none => .ok s
  | some idx => do
    let r ← match s.send_store[idx]? with
      | some r => pure r
      | none => .error .keyError
    let p ← pyInt (← pyGet what.data "peer_id")
    if r.peer_id = p then do
      let sz ← pyInt (← pyGet what.data "cmpctblock_bytes")
      let t ← pyTime what
      .ok { s with
            send_store :=
              s.send_store.set idx { r with send_size := sz, time_sent := some t },
            pending_max_send := some idx,
            pending_block_send := none }
    else .error .assertionError

/-- The `NET_MAX_SEND` arm: no pending sent record drops the event;
otherwise the window size lands on that record and the slot clears. -/
def stepMaxSend (s : CBState) (what : LogEntry) : Except PyErr CBState :=
  match s.pending_max_send with
  | none => .ok s
  | some idx => do
    let r ← match s.send_store[idx]? with
      | some r => pure r
      | none => .error .keyError
    let w ← pyInt (← pyGet what.data "max_send_bytes")
    .ok { s with
          send_store := s.send_store.set idx { r with tcp_window_size := w },
          pending_max_send := none }

/-- The `match why` statement of `parse_cb_log`'s loop body.  A `WE_DONT`
reason has no arm (a Python `match` without a matching case is a no-op; the
loop also guards it away before the match). -/
def cbMatchStep (s : CBState) (why : ReasonsToCare) (what : LogEntry) :
    Except PyErr CBState :=
  match why with
  | .WE_DONT => .ok s
  | .CB_RECEIVE => stepReceive s what
  | .CB_RECONSTRUCTION => stepReconstruction s what
  | .CB_TO_ANNOUNCE => stepAnnounce s what
  | .CB_REQUESTED => stepAnnounce s what
  | .CB_SEND => stepSend s what
  | .NET_MAX_SEND => stepMaxSend s what

/-- One iteration of `parse_cb_log`'s `for entry in ...` loop: classify the
entry, skip it when `WE_DONT`/`None`, and dispatch on the reason. -/
def cbProcessEntry (s : CBState) (e : LogEntry) : Except PyErr CBState := do
  let (why, what) ← we_care e
  match why, what with
  | .WE_DONT, _ => .ok s
  | _, none => .ok s
  | why, some w => cbMatchStep s why w

/-- The correlation engine as a fold over an already-classified event
stream: each element is the `(why, what)` pair a loop iteration dispatches
on.  An uncaught exception aborts the whole pass. -/
def cbFold : CBState → List (ReasonsToCare × LogEntry) → Except PyErr CBState
  | s, [] => .ok s
  | s, (why, what) :: es => do cbFold (← cbMatchStep s why what) es

/-- Python `str.strip()` over the ASCII whitespace extent. -/
def pyStrip (s : String) : String :=
  String.mk ((dropWs (dropWs s.data.reverse).reverse))

/-- `process_log_generator` + `parse_cb_log` over the file's lines: strip
each line, skip blank ones, build the `LogEntry` (whose construction may
raise), and run the loop body.  Returns the final engine state, whose
`blocks_received` and `blocks_sent` are the two result collections. -/
def parse_cb_log : CBState → List String → Except PyErr CBState
  | s, [] => .ok s
  | s, l :: ls =>
    let l1 := pyStrip l
    if l1 = "" then parse_cb_log s ls
    else do
      let e ← process_line_metadata l1
      let s1 ← cbProcessEntry s e
      parse_cb_log s1 ls


/-- Canonical re-rendering of a tokenized line's metadata prefix and body:
each bracket group re-wrapped in `[...]` and separated by single spaces,
followed by the body (the spec's "timestamp + bracketed metadata groups +
body" reconstruction, metadata part). -/
def renderGroups : List (List Char) → List Char → List Char
  | [], body => body
  | g :: gs, body => '[' :: (g ++ ']' :: ' ' :: renderGroups gs body)

/-- The reconstructed line: timestamp, one space, re-rendered metadata
groups, body. -/
def reassembleLine (t : List Char) (gs : List (List Char)) (body : List Char) :
    String :=
  String.mk (t ++ ' ' :: renderGroups gs body)

/-- State invariant shared by the send-record claims: every stored record
whose `tcp_window_size` is set has passed through `Sent` (non-null
`time_sent`), a record never consumed by `Sent` still has all its default
field values, and the pending-window slot only ever references a record
that `Sent` has stamped. -/
def sentInv (s : CBState) : Prop :=
  (∀ (idx : Nat) (r : BlockSent), s.send_store[idx]? = some r →
      (r.tcp_window_size ≠ 0 → r.time_sent ≠ none) ∧
      (r.time_sent = none → r.send_size = 0 ∧ r.tcp_window_size = 0)) ∧
  (∀ idx, s.pending_max_send = some idx →
      ∃ r : BlockSent, s.send_store[idx]? = some r ∧ r.time_sent ≠ none)

/-- Index `idx` is one of hash `h`'s committed send records. -/
def sentMember (s : CBState) (h : String) (idx : Nat) : Prop :=
  idx ∈ (lookupD s.blocks_sent h).getD []

/-- C1 counterexample: the five spec-given log lines, with the block hash
written `AA` exactly as in the claim, produce *no* records at all — the
block-hash capture class `[0-9a-f]+` of `LOG_PATTERNS` matches lowercase
hexadecimal only, so every line mentioning `AA` classifies as
uninteresting, the `CB_SEND` and `NET_MAX_SEND` events find no pending
record, and the pass returns the empty initial state instead of the claimed
one receive record and one send record. -/
theorem c1_uppercase_scenario_yields_nothing :
    parse_cb_log initCBState
      ["T1 [cmpctblock] Initialized PartiallyDownloadedBlock for block AA using a cmpctblock of 100 bytes",
       "T2 [net] PeerManager::NewPoWValidBlock sending header-and-ids AA to peer=7",
       "T3 [net] sending cmpctblock (120 bytes) peer=7",
       "T4 [net]     - Max send per-rtt: 1500 bytes",
       "T5 [cmpctblock] Successfully reconstructed block AA with 1 txn prefilled, 2 txn from mempool (incl at least 0 from extra pool) and 0 txn (0 bytes) requested"]
      = .ok initCBState := by
  rfl

/-- C1 amended: with a lowercase-hexadecimal block hash (here `aa`), the
five-line scenario yields exactly one receive record
`{hash=aa, received_size=100, bytes_missing=0, tx_missing_count=0,
time_received=T1, time_reconstructed=T5}` and exactly one send record
`{hash=aa, peer_id=7, send_size=120, tcp_window_size=1500, time_sent=T3}`,
and no pending state survives. -/
theorem c1_scenario_records :
    parse_cb_log initCBState
      ["T1 [cmpctblock] Initialized PartiallyDownloadedBlock for block aa using a cmpctblock of 100 bytes",
       "T2 [net] PeerManager::NewPoWValidBlock sending header-and-ids aa to peer=7",
       "T3 [net] sending cmpctblock (120 bytes) peer=7",
       "T4 [net]     - Max send per-rtt: 1500 bytes",
       "T5 [cmpctblock] Successfully reconstructed block aa with 1 txn prefilled, 2 txn from mempool (incl at least 0 from extra pool) and 0 txn (0 bytes) requested"]
      = .ok { blocks_received :=
                [("aa", { time_received := some "T1",
                          time_reconstructed := some "T5",
                          received_size := 100,
                          bytes_missing := 0,
                          received_tx_missing := 0 })],
              blocks_sent := [("aa", [0])],
              send_store := [{ block_received := "aa",
                               peer_id := 7,
                               time_sent := some "T3",
                               send_size := 120,
                               tcp_window_size := 1500 }],
              pending_block_send := none,
              pending_max_send := none,
              hash_pending_reconstruction := none } := by
  rfl

/-- C2: a whitespace-free line is *not* skipped.  `process_line_metadata`
prints its malformed-line warning and returns early, leaving the
`metadata`/`body` attributes unset, but the constructed entry is still
yielded to `parse_cb_log`, whose `we_care` call reads
`entry.metadata.category` and raises `AttributeError` — aborting the whole
run before the following perfectly valid line is processed. -/
theorem c2_malformed_line_aborts_run :
    parse_cb_log initCBState
      ["garbage",
       "T1 [cmpctblock] Initialized PartiallyDownloadedBlock for block aa using a cmpctblock of 100 bytes"]
      = .error .attributeError := by
  rfl

/-- C3 counterexample: the compact-block send line may report `0 bytes`
(the `\d+` size capture matches `0`), in which case the completed send
record has a non-zero `tcp_window_size` (1500) together with a zero
`send_size`, refuting the claimed invariant as stated. -/
theorem c3_zero_byte_send_counterexample :
    parse_cb_log initCBState
      ["T1 [cmpctblock] Initialized PartiallyDownloadedBlock for block aa using a cmpctblock of 100 bytes",
       "T2 [net] PeerManager::NewPoWValidBlock sending header-and-ids aa to peer=7",
       "T3 [net] sending cmpctblock (0 bytes) peer=7",
       "T4 [net]     - Max send per-rtt: 1500 bytes"]
      = .ok { blocks_received :=
                [("aa", { time_received := some "T1",
                          time_reconstructed := none,
                          received_size := 100,
                          bytes_missing := 0,
                          received_tx_missing := 0 })],
              blocks_sent := [("aa", [0])],
              send_store := [{ block_received := "aa",
                               peer_id := 7,
                               time_sent := some "T3",
                               send_size := 0,
                               tcp_window_size := 1500 }],
              pending_block_send := none,
              pending_max_send := none,
              hash_pending_reconstruction := some "aa" } := by
  rfl

/-- Reduction of the modelled exception monad: binding a success. -/
@[simp] theorem exceptOkBind {ε α β : Type} (a : α) (f : α → Except ε β) :
    (Except.ok a >>= f) = f a := rfl

/-- Reduction of the modelled exception monad: binding a raised exception. -/
@[simp] theorem exceptErrorBind {ε α β : Type} (er : ε) (f : α → Except ε β) :
    ((Except.error er : Except ε α) >>= f) = Except.error er := rfl

/-- Mapping over a success. -/
@[simp] theorem exceptMapOk {ε α β : Type} (f : α → β) (a : α) :
    (Except.ok a : Except ε α).map f = Except.ok (f a) := rfl

/-- Mapping over a raised exception. -/
@[simp] theorem exceptMapError {ε α β : Type} (f : α → β) (er : ε) :
    (Except.error er : Except ε α).map f = Except.error er := rfl

/-- C5: a `Reconstructed` event whose hash differs from the
pending-reconstruction slot (in particular when the slot is empty) only
prints a warning and is skipped: the dispatch returns the state completely
unchanged — receive map, send map, store and all three pending slots — and
raises nothing, for *every* engine state. -/
theorem c5_unexpected_reconstruction_skipped (s : CBState) (what : LogEntry)
    (h : String)
    (hdata : lookupD what.data "blockhash" = some h)
    (hne : s.hash_pending_reconstruction ≠ some h) :
    cbMatchStep s .CB_RECONSTRUCTION what = .ok s := by
  simp [cbMatchStep, stepReconstruction, pyGet, hdata, hne]

/-- Witness for C5: a `Reconstructed(aa)` event against the empty initial
state (whose pending slot is empty) is a no-op. -/
theorem c5_witness :
    lookupD [("blockhash", "aa")] "blockhash" = some "aa" ∧
    initCBState.hash_pending_reconstruction ≠ some "aa" ∧
    cbMatchStep initCBState .CB_RECONSTRUCTION
      { metadata := none, body := none, data := [("blockhash", "aa")] }
      = .ok initCBState :=
  ⟨by decide, by decide,
   c5_unexpected_reconstruction_skipped initCBState
     { metadata := none, body := none, data := [("blockhash", "aa")] }
     "aa" (by decide) (by decide)⟩

/-- C8: the classifier is deterministic and history-independent — its
reason and captured-field mapping depend only on the `(category, body)`
pair.  Two entries agreeing on category and body (regardless of their other
fields, and of anything classified before: `we_care` is a function of its
argument alone) classify to the same reason and the same `groupdict`. -/
theorem c8_classifier_pure (e1 e2 : LogEntry) (md1 md2 : Metadata)
    (h1 : e1.metadata = some md1) (h2 : e2.metadata = some md2)
    (hcat : md1.category = md2.category) (hbody : e1.body = e2.body) :
    (we_care e1).map (fun p => (p.1, p.2.map LogEntry.data)) =
      (we_care e2).map (fun p => (p.1, p.2.map LogEntry.data)) := by
  have hgo : weCareGo LOG_PATTERNS md1.category e1.body
      = weCareGo LOG_PATTERNS md2.category e2.body := by
    rw [hcat, hbody]
  simp only [we_care, h1, h2, hgo]
  cases hw : weCareGo LOG_PATTERNS md2.category e2.body with
  | error er => simp
  | ok p =>
    cases p with
    | mk r d => cases d <;> simp

/-- Witness for C8: two entries sharing `(net, sending cmpctblock (120
bytes) peer=7)` but with different timestamps and thread fields classify
identically. -/
theorem c8_witness :
    (({ time_str := "T3", category := some "net" } : Metadata).category
        = ({ time_str := "T9", category := some "net", thread := some "msghand" } : Metadata).category) ∧
    (we_care { metadata := some { time_str := "T3", category := some "net" },
               body := some "sending cmpctblock (120 bytes) peer=7", data := [] }).map
        (fun p => (p.1, p.2.map LogEntry.data)) =
      (we_care { metadata := some { time_str := "T9", category := some "net", thread := some "msghand" },
                 body := some "sending cmpctblock (120 bytes) peer=7", data := [] }).map
        (fun p => (p.1, p.2.map LogEntry.data)) :=
  ⟨rfl,
   c8_classifier_pure _ _ _ _ rfl rfl rfl rfl⟩

/-- C6: with an announce/request-created record still sitting in the
pending-send slot (its peer being `p1 = r.peer_id`), a `Sent` event
carrying peer `p2 ≠ p1` hits the `assert pending_block_send.peer_id ==
int(what.data['peer_id'])` and the whole pass aborts with an
`AssertionError`, however the stream continues — no result collections are
produced.  With `p2 = p1` the assertion passes and the pass continues on
the updated state (size and send time filled in, record moved to the
pending-window slot). -/
theorem c6_peer_mismatch_aborts (s : CBState) (what : LogEntry)
    (idx : Nat) (r : BlockSent) (md : Metadata) (p2s szs : String)
    (p2 sz : Nat) (rest : List (ReasonsToCare × LogEntry))
    (hslot : s.pending_block_send = some idx)
    (hr : s.send_store[idx]? = some r)
    (hp2s : lookupD what.data "peer_id" = some p2s)
    (hp2 : pyInt p2s = .ok p2)
    (hszs : lookupD what.data "cmpctblock_bytes" = some szs)
    (hsz : pyInt szs = .ok sz)
    (hmd : what.metadata = some md) :
    (p2 ≠ r.peer_id →
      cbFold s ((.CB_SEND, what) :: rest) = .error .assertionError) ∧
    (p2 = r.peer_id →
      cbFold s ((.CB_SEND, what) :: rest) =
        cbFold { s with
                 send_store := s.send_store.set idx
                   { r with send_size := sz, time_sent := some md.time_str },
                 pending_max_send := some idx,
                 pending_block_send := none } rest) := by
  constructor
  · intro hne
    simp [cbFold, cbMatchStep, stepSend, hslot, hr, pyGet, hp2s, hp2,
          Ne.symm hne]
  · intro heq
    simp [cbFold, cbMatchStep, stepSend, hslot, hr, pyGet, hp2s, hp2, heq,
          hszs, hsz, pyTime, hmd]

/-- Witness for C6: a state whose pending slot holds a peer-1 record,
together with a `Sent(peer=2)` event, instantiates the theorem; the
mismatch branch aborts the fold. -/
theorem c6_witness :
    ({ send_store := [{ block_received := "aa", peer_id := 1 }],
       pending_block_send := some 0 } : CBState).pending_block_send = some 0 ∧
    (2 ≠ (1 : Nat) →
      cbFold { send_store := [{ block_received := "aa", peer_id := 1 }],
               pending_block_send := some 0 }
        [(.CB_SEND, { metadata := some { time_str := "T3" }, body := some "",
                      data := [("peer_id", "2"), ("cmpctblock_bytes", "120")] })]
        = .error .assertionError) :=
  ⟨rfl,
   (c6_peer_mismatch_aborts
      { send_store := [{ block_received := "aa", peer_id := 1 }],
        pending_block_send := some 0 }
      { metadata := some { time_str := "T3" }, body := some "",
        data := [("peer_id", "2"), ("cmpctblock_bytes", "120")] }
      0 { block_received := "aa", peer_id := 1 } { time_str := "T3" }
      "2" "120" 2 120 []
      rfl rfl rfl rfl rfl rfl rfl).1⟩

/-- C4 counterexample: a stream *containing* `Received(0a)` followed by
`Received(0b)` (distinct hashes, no intervening `Reconstructed(0a)`) whose
final receive map nevertheless does not contain `0b` — a third
`Received(0d)` evicts it, so the claim's "hence the final receive-record
map contains B" fails as universally stated (the removal/insertion story
holds only while nothing later evicts B). -/
theorem c4_third_receive_evicts_counterexample :
    parse_cb_log initCBState
      ["T1 [cmpctblock] Initialized PartiallyDownloadedBlock for block 0a using a cmpctblock of 100 bytes",
       "T2 [cmpctblock] Initialized PartiallyDownloadedBlock for block 0b using a cmpctblock of 100 bytes",
       "T3 [cmpctblock] Initialized PartiallyDownloadedBlock for block 0d using a cmpctblock of 100 bytes"]
      = .ok { blocks_received :=
                [("0d", { time_received := some "T3", received_size := 100 })],
              hash_pending_reconstruction := some "0d" } := by
  rfl

/-- C4 amended: for the event sequence consisting of `Received(A)` followed
by `Received(B)` with `A ≠ B` (and no further events), processing
`Received(B)` removes `A`'s record, inserts a fresh record for `B`, and
sets the pending-reconstruction slot to `B`; the final receive map hence
contains `B` and not `A`. -/
theorem c4_orphaned_receive_discarded (A B ta tb szsa szsb : String)
    (sza szb : Nat) (hne : A ≠ B)
    (hsa : pyInt szsa = .ok sza) (hsb : pyInt szsb = .ok szb) :
    cbFold initCBState
      [(.CB_RECEIVE, { metadata := some { time_str := ta }, body := some "",
                       data := [("blockhash", A), ("cmpctblock_bytes", szsa)] }),
       (.CB_RECEIVE, { metadata := some { time_str := tb }, body := some "",
                       data := [("blockhash", B), ("cmpctblock_bytes", szsb)] })]
      = .ok { blocks_received :=
                [(B, { time_received := some tb, received_size := szb })],
              hash_pending_reconstruction := some B } ∧
    lookupD [(B, ({ time_received := some tb, received_size := szb } : BlockReceived))] B
      = some { time_received := some tb, received_size := szb } ∧
    lookupD [(B, ({ time_received := some tb, received_size := szb } : BlockReceived))] A
      = none := by
  refine ⟨?_, ?_, ?_⟩
  · simp [cbFold, cbMatchStep, stepReceive, pyGet, lookupD, insertD, eraseD,
          pyTime, hsa, hsb, List.find?, initCBState]
  · simp [lookupD, List.find?]
  · simp [lookupD, List.find?, hne.symm]

/-- Witness for C4: hashes `0a ≠ 0b` with sizes 100 and 200. -/
theorem c4_witness :
    ("0a" : String) ≠ "0b" ∧
    cbFold initCBState
      [(.CB_RECEIVE, { metadata := some { time_str := "T1" }, body := some "",
                       data := [("blockhash", "0a"), ("cmpctblock_bytes", "100")] }),
       (.CB_RECEIVE, { metadata := some { time_str := "T2" }, body := some "",
                       data := [("blockhash", "0b"), ("cmpctblock_bytes", "200")] })]
      = .ok { blocks_received :=
                [("0b", { time_received := some "T2", received_size := 200 })],
              hash_pending_reconstruction := some "0b" } :=
  ⟨by decide,
   (c4_orphaned_receive_discarded "0a" "0b" "T1" "T2" "100" "200" 100 200
      (by decide) rfl rfl).1⟩

/-- `defaultdict` append preserves every existing membership. -/
theorem mem_appendD (l : List (String × List Nat)) (k : String) (v : Nat)
    (h : String) (idx : Nat) (hm : idx ∈ (lookupD l h).getD []) :
    idx ∈ (lookupD (appendD l k v) h).getD [] := by
  induction l with
  | nil => simp [lookupD] at hm
  | cons p rest ih =>
    obtain ⟨k', vs⟩ := p
    by_cases hk : k' = k
    · subst hk
      by_cases hh : k' = h
      · subst hh
        simp [lookupD, appendD, List.find?] at hm ⊢
        exact Or.inl hm
      · simp [lookupD, appendD, List.find?, hh] at hm ⊢
        exact hm
    · by_cases hh : k' = h
      · subst hh
        simp [lookupD, appendD, List.find?, hk] at hm ⊢
        exact hm
      · simp [lookupD, appendD, List.find?, hk, hh] at hm ⊢
        exact ih hm

/-- The value just appended is a member of its key's list. -/
theorem self_mem_appendD (l : List (String × List Nat)) (k : String) (v : Nat) :
    v ∈ (lookupD (appendD l k v) k).getD [] := by
  induction l with
  | nil => simp [lookupD, appendD, List.find?]
  | cons p rest ih =>
    obtain ⟨k', vs⟩ := p
    by_cases hk : k' = k
    · subst hk
      simp [lookupD, appendD, List.find?]
    · simp [lookupD, appendD, List.find?, hk]
      exact ih

/-- Binding a pure value. -/
@[simp] theorem exceptPureBind {ε α β : Type} (a : α) (f : α → Except ε β) :
    ((pure a : Except ε α) >>= f) = f a := rfl

/-- A bind succeeds exactly when both stages succeed. -/
theorem exceptBindOkIff {ε α β : Type} (e : Except ε α) (f : α → Except ε β)
    (b : β) :
    (e >>= f) = Except.ok b ↔ ∃ a, e = Except.ok a ∧ f a = Except.ok b := by
  cases e with
  | error er => simp [exceptErrorBind]
  | ok a => simp [exceptOkBind]

/-- `CB_RECEIVE` never touches the send-side state. -/
theorem stepReceive_send_fields (s s' : CBState) (what : LogEntry)
    (hs : stepReceive s what = .ok s') :
    s'.send_store = s.send_store ∧ s'.blocks_sent = s.blocks_sent ∧
      s'.pending_max_send = s.pending_max_send := by
  unfold stepReceive at hs
  cases hpr : s.hash_pending_reconstruction with
  | none =>
    simp only [hpr, exceptPureBind, exceptBindOkIff, Except.ok.injEq] at hs
    obtain ⟨h, -, t, -, d, -, sz, -, rfl⟩ := hs
    exact ⟨rfl, rfl, rfl⟩
  | some hp =>
    cases hlk : lookupD s.blocks_received hp with
    | none => simp [hpr, hlk] at hs
    | some b =>
      simp only [hpr, hlk, exceptPureBind, exceptBindOkIff, Except.ok.injEq] at hs
      obtain ⟨h, -, t, -, d, -, sz, -, rfl⟩ := hs
      exact ⟨rfl, rfl, rfl⟩

/-- `CB_RECONSTRUCTION` never touches the send-side state. -/
theorem stepReconstruction_send_fields (s s' : CBState) (what : LogEntry)
    (hs : stepReconstruction s what = .ok s') :
    s'.send_store = s.send_store ∧ s'.blocks_sent = s.blocks_sent ∧
      s'.pending_max_send = s.pending_max_send := by
  unfold stepReconstruction at hs
  rw [exceptBindOkIff] at hs
  obtain ⟨h, -, hs⟩ := hs
  by_cases hg : s.hash_pending_reconstruction ≠ some h
  · rw [if_pos hg] at hs
    cases hs
    exact ⟨rfl, rfl, rfl⟩
  · rw [if_neg hg] at hs
    cases hlk : lookupD s.blocks_received h with
    | none => simp [hlk] at hs
    | some b =>
      simp only [hlk, exceptPureBind, exceptBindOkIff, Except.ok.injEq] at hs
      obtain ⟨d1, -, rc, -, d2, -, rb, -, t, -, rfl⟩ := hs
      exact ⟨rfl, rfl, rfl⟩

/-- `CB_TO_ANNOUNCE`/`CB_REQUESTED` preserves the send invariant (the fresh
record has every default value) and every committed membership. -/
theorem stepAnnounce_inv (s s' : CBState) (what : LogEntry)
    (hs : stepAnnounce s what = .ok s') (hinv : sentInv s) :
    sentInv s' ∧ ∀ h idx, sentMember s h idx → sentMember s' h idx := by
  unfold stepAnnounce at hs
  rw [exceptBindOkIff] at hs
  obtain ⟨h0, -, hs⟩ := hs
  cases hlk : lookupD s.blocks_received h0 with
  | none =>
    simp only [hlk] at hs
    cases hs
    exact ⟨hinv, fun _ _ m => m⟩
  | some br =>
    simp only [hlk, exceptBindOkIff, Except.ok.injEq] at hs
    obtain ⟨d, -, p, -, rfl⟩ := hs
    refine ⟨⟨?_, ?_⟩, ?_⟩
    · intro idx r hr
      rw [List.getElem?_append] at hr
      split at hr
      · exact hinv.1 idx r hr
      · rcases hd : idx - s.send_store.length with _ | n <;> rw [hd] at hr
        · simp only [List.getElem?_cons_zero, Option.some.injEq] at hr
          subst hr
          simp
        · simp at hr
    · intro idx hpm
      obtain ⟨r, hr, ht⟩ := hinv.2 idx hpm
      obtain ⟨hlt, -⟩ := List.getElem?_eq_some.mp hr
      refine ⟨r, ?_, ht⟩
      rw [List.getElem?_append, if_pos hlt]
      exact hr
    · intro h idx m
      exact mem_appendD _ _ _ _ _ m

/-- `CB_SEND` preserves the send invariant (it stamps `time_sent` on the
record it completes and moves it to the pending-window slot) and every
committed membership. -/
theorem stepSend_inv (s s' : CBState) (what : LogEntry)
    (hs : stepSend s what = .ok s') (hinv : sentInv s) :
    sentInv s' ∧ ∀ h idx, sentMember s h idx → sentMember s' h idx := by
  unfold stepSend at hs
  cases hpb : s.pending_block_send with
  | none =>
    simp only [hpb] at hs
    cases hs
    exact ⟨hinv, fun _ _ m => m⟩
  | some idx0 =>
    simp only [hpb] at hs
    cases hg : s.send_store[idx0]? with
    | none => simp [hg] at hs
    | some r0 =>
      simp only [hg, exceptPureBind, exceptBindOkIff] at hs
      obtain ⟨d, -, p, -, hs⟩ := hs
      by_cases hpe : r0.peer_id = p
      · rw [if_pos hpe] at hs
        simp only [exceptBindOkIff, Except.ok.injEq] at hs
        obtain ⟨d2, -, sz, -, t, -, rfl⟩ := hs
        obtain ⟨hlt, -⟩ := List.getElem?_eq_some.mp hg
        refine ⟨⟨?_, ?_⟩, ?_⟩
        · intro idx r hr
          by_cases he : idx0 = idx
          · subst he
            rw [List.getElem?_set_eq_of_lt _ hlt] at hr
            obtain rfl := Option.some.injEq .. ▸ hr
            simp
          · rw [List.getElem?_set_ne he] at hr
            exact hinv.1 idx r hr
        · intro idx hpm
          obtain rfl : idx0 = idx := by
            simpa using hpm
          refine ⟨_, List.getElem?_set_eq_of_lt _ hlt, ?_⟩
          simp
        · intro h idx m
          exact m
      · rw [if_neg hpe] at hs
        simp at hs

/-- `NET_MAX_SEND` preserves the send invariant: the record it stamps a
window size on was placed in the pending-window slot by `Sent` and so has a
non-null `time_sent`. -/
theorem stepMaxSend_inv (s s' : CBState) (what : LogEntry)
    (hs : stepMaxSend s what = .ok s') (hinv : sentInv s) :
    sentInv s' ∧ ∀ h idx, sentMember s h idx → sentMember s' h idx := by
  unfold stepMaxSend at hs
  cases hpm : s.pending_max_send with
  | none =>
    simp only [hpm] at hs
    cases hs
    exact ⟨hinv, fun _ _ m => m⟩
  | some idx0 =>
    simp only [hpm] at hs
    cases hg : s.send_store[idx0]? with
    | none => simp [hg] at hs
    | some r0 =>
      simp only [hg, exceptPureBind, exceptBindOkIff, Except.ok.injEq] at hs
      obtain ⟨d, -, w, -, rfl⟩ := hs
      obtain ⟨r1, hr1, ht1⟩ := hinv.2 idx0 hpm
      obtain rfl : r1 = r0 := by
        rw [hg] at hr1
        exact (Option.some.injEq .. ▸ hr1).symm
      obtain ⟨hlt, -⟩ := List.getElem?_eq_some.mp hg
      refine ⟨⟨?_, ?_⟩, ?_⟩
      · intro idx r hr
        by_cases he : idx0 = idx
        · subst he
          rw [List.getElem?_set_eq_of_lt _ hlt] at hr
          obtain rfl := Option.some.injEq .. ▸ hr
          constructor
          · intro _
            simpa using ht1
          · intro htn
            simp at htn
            exact absurd htn ht1
        · rw [List.getElem?_set_ne he] at hr
          exact hinv.1 idx r hr
      · intro idx hcon
        simp at hcon
      · intro h idx m
        exact m

/-- Every dispatch of the correlation loop preserves the send invariant and
every committed send-record membership. -/
theorem cbMatchStep_inv (s s' : CBState) (why : ReasonsToCare)
    (what : LogEntry) (hs : cbMatchStep s why what = .ok s')
    (hinv : sentInv s) :
    sentInv s' ∧ ∀ h idx, sentMember s h idx → sentMember s' h idx := by
  cases why
  case WE_DONT =>
    cases hs
    exact ⟨hinv, fun _ _ m => m⟩
  case CB_RECEIVE =>
    obtain ⟨h1, h2, h3⟩ := stepReceive_send_fields s s' what hs
    refine ⟨⟨?_, ?_⟩, ?_⟩
    · rw [h1]; exact hinv.1
    · rw [h1, h3]; exact hinv.2
    · intro h idx m
      unfold sentMember
      rw [h2]
      exact m
  case CB_RECONSTRUCTION =>
    obtain ⟨h1, h2, h3⟩ := stepReconstruction_send_fields s s' what hs
    refine ⟨⟨?_, ?_⟩, ?_⟩
    · rw [h1]; exact hinv.1
    · rw [h1, h3]; exact hinv.2
    · intro h idx m
      unfold sentMember
      rw [h2]
      exact m
  case CB_TO_ANNOUNCE => exact stepAnnounce_inv s s' what hs hinv
  case CB_REQUESTED => exact stepAnnounce_inv s s' what hs hinv
  case CB_SEND => exact stepSend_inv s s' what hs hinv
  case NET_MAX_SEND => exact stepMaxSend_inv s s' what hs hinv

/-- The correlation fold preserves the send invariant and committed
memberships from any intermediate state to the end of the run. -/
theorem cbFold_inv (es : List (ReasonsToCare × LogEntry)) :
    ∀ (s s' : CBState), sentInv s → cbFold s es = .ok s' →
      sentInv s' ∧ ∀ h idx, sentMember s h idx → sentMember s' h idx := by
  induction es with
  | nil =>
    intro s s' hinv hf
    cases hf
    exact ⟨hinv, fun _ _ m => m⟩
  | cons e rest ih =>
    intro s s' hinv hf
    obtain ⟨why, what⟩ := e
    unfold cbFold at hf
    rw [exceptBindOkIff] at hf
    obtain ⟨s1, h1, h2⟩ := hf
    obtain ⟨hi1, hm1⟩ := cbMatchStep_inv s s1 why what h1 hinv
    obtain ⟨hi2, hm2⟩ := ih s1 s' hi1 h2
    exact ⟨hi2, fun h idx m => hm2 h idx (hm1 h idx m)⟩

/-- The empty engine state satisfies the send invariant. -/
theorem sentInv_init : sentInv initCBState := by
  constructor
  · intro idx r hr
    simp [initCBState] at hr
  · intro idx h
    simp [initCBState] at h

/-- C3 amended: over every classified event stream, each send record in the
final state whose `tcp_window_size` is non-zero has a non-null `time_sent`
(a window size only ever attaches to the record the preceding `Sent` event
stamped).  The non-zero-`send_size` half of the original claim fails — see
the counterexample — because a `Sent` event may report `0 bytes`. -/
theorem c3_window_implies_time_sent (es : List (ReasonsToCare × LogEntry))
    (fin : CBState) (hrun : cbFold initCBState es = .ok fin) :
    ∀ (idx : Nat) (r : BlockSent), fin.send_store[idx]? = some r →
      r.tcp_window_size ≠ 0 → r.time_sent ≠ none := by
  intro idx r hr hw
  exact ((cbFold_inv es initCBState fin sentInv_init hrun).1.1 idx r hr).1 hw

/-- Witness for C3: a receive/announce/sent/window stream whose one send
record ends with window 1500; the theorem yields its non-null `time_sent`. -/
theorem c3_witness :
    cbFold initCBState
      [(.CB_RECEIVE, { metadata := some { time_str := "T1" }, body := some "",
                       data := [("blockhash", "aa"), ("cmpctblock_bytes", "100")] }),
       (.CB_TO_ANNOUNCE, { metadata := some { time_str := "T2" }, body := some "",
                           data := [("blockhash", "aa"), ("peer_id", "7")] }),
       (.CB_SEND, { metadata := some { time_str := "T3" }, body := some "",
                    data := [("peer_id", "7"), ("cmpctblock_bytes", "120")] }),
       (.NET_MAX_SEND, { metadata := some { time_str := "T4" }, body := some "",
                         data := [("max_send_bytes", "1500")] })]
      = .ok { blocks_received :=
                [("aa", { time_received := some "T1", received_size := 100 })],
              blocks_sent := [("aa", [0])],
              send_store := [{ block_received := "aa", peer_id := 7,
                               time_sent := some "T3", send_size := 120,
                               tcp_window_size := 1500 }],
              hash_pending_reconstruction := some "aa" } ∧
    ({ block_received := "aa", peer_id := 7, time_sent := some "T3",
       send_size := 120, tcp_window_size := 1500 } : BlockSent).time_sent
      ≠ none :=
  ⟨rfl,
   c3_window_implies_time_sent
     [(.CB_RECEIVE, { metadata := some { time_str := "T1" }, body := some "",
                      data := [("blockhash", "aa"), ("cmpctblock_bytes", "100")] }),
      (.CB_TO_ANNOUNCE, { metadata := some { time_str := "T2" }, body := some "",
                          data := [("blockhash", "aa"), ("peer_id", "7")] }),
      (.CB_SEND, { metadata := some { time_str := "T3" }, body := some "",
                   data := [("peer_id", "7"), ("cmpctblock_bytes", "120")] }),
      (.NET_MAX_SEND, { metadata := some { time_str := "T4" }, body := some "",
                        data := [("max_send_bytes", "1500")] })]
     { blocks_received :=
         [("aa", { time_received := some "T1", received_size := 100 })],
       blocks_sent := [("aa", [0])],
       send_store := [{ block_received := "aa", peer_id := 7,
                        time_sent := some "T3", send_size := 120,
                        tcp_window_size := 1500 }],
       hash_pending_reconstruction := some "aa" }
     rfl 0
     { block_received := "aa", peer_id := 7, time_sent := some "T3",
       send_size := 120, tcp_window_size := 1500 }
     rfl (by decide)⟩

/-- C9: a `BlockSendRecord` is committed to the send-records map at the
moment its announce/request is processed — with `send_size = 0`,
`tcp_window_size = 0` and `time_sent` absent — and is never removed
afterwards; and any record still unconsumed by a `Sent` event at the end of
the run (superseded or never followed) still shows exactly those defaults
in the returned map.  Stated over a run split into any prefix (reaching
`mid`) and suffix (reaching `fin`): memberships committed by `mid` survive
to `fin`; final records with `time_sent` absent have both sizes zero; and
an announce against `mid` for a received hash commits the fresh default
record immediately. -/
theorem c9_send_records_committed_and_kept
    (es1 es2 : List (ReasonsToCare × LogEntry)) (mid fin : CBState)
    (h1 : cbFold initCBState es1 = .ok mid)
    (h2 : cbFold mid es2 = .ok fin) :
    (∀ h idx, sentMember mid h idx → sentMember fin h idx) ∧
    (∀ (idx : Nat) (r : BlockSent), fin.send_store[idx]? = some r →
        r.time_sent = none → r.send_size = 0 ∧ r.tcp_window_size = 0) ∧
    (∀ (what : LogEntry) (hsh ps : String) (p : Nat) (br : BlockReceived),
        lookupD what.data "blockhash" = some hsh →
        lookupD mid.blocks_received hsh = some br →
        lookupD what.data "peer_id" = some ps →
        pyInt ps = .ok p →
        ∃ s' : CBState,
          cbMatchStep mid .CB_TO_ANNOUNCE what = .ok s' ∧
          sentMember s' hsh mid.send_store.length ∧
          s'.send_store[mid.send_store.length]? =
            some { block_received := hsh, peer_id := p }) := by
  have hmidInv : sentInv mid := (cbFold_inv es1 initCBState mid sentInv_init h1).1
  have h2' := cbFold_inv es2 mid fin hmidInv h2
  refine ⟨h2'.2, fun idx r hr => (h2'.1.1 idx r hr).2, ?_⟩
  intro what hsh ps p br hb hre hp hpi
  refine ⟨{ mid with
            send_store :=
              mid.send_store ++ [{ block_received := hsh, peer_id := p }],
            blocks_sent := appendD mid.blocks_sent hsh mid.send_store.length,
            pending_block_send := some mid.send_store.length },
          ?_, ?_, ?_⟩
  · show stepAnnounce mid what = _
    simp [stepAnnounce, pyGet, hb, hre, hp, hpi]
  · exact self_mem_appendD _ _ _
  · exact List.getElem?_concat_length _ _

/-- Witness for C9: against a state holding one received block `aa`, an
announce to peer 7 commits send record 0 with all default fields. -/
theorem c9_witness :
    ∃ s' : CBState,
      cbMatchStep
        { blocks_received :=
            [("aa", { time_received := some "T1", received_size := 100 })],
          hash_pending_reconstruction := some "aa" }
        .CB_TO_ANNOUNCE
        { metadata := some { time_str := "T2" }, body := some "",
          data := [("blockhash", "aa"), ("peer_id", "7")] } = .ok s' ∧
      sentMember s' "aa" 0 ∧
      s'.send_store[0]? = some { block_received := "aa", peer_id := 7 } :=
  (c9_send_records_committed_and_kept
     [(.CB_RECEIVE, { metadata := some { time_str := "T1" }, body := some "",
                      data := [("blockhash", "aa"), ("cmpctblock_bytes", "100")] })]
     []
     { blocks_received :=
         [("aa", { time_received := some "T1", received_size := 100 })],
       hash_pending_reconstruction := some "aa" }
     { blocks_received :=
         [("aa", { time_received := some "T1", received_size := 100 })],
       hash_pending_reconstruction := some "aa" }
     rfl rfl).2.2
    { metadata := some { time_str := "T2" }, body := some "",
      data := [("blockhash", "aa"), ("peer_id", "7")] }
    "aa" "7" 7 { time_received := some "T1", received_size := 100 }
    rfl rfl rfl rfl

/-- The classification loop never touches `category` or `wallet_name`. -/
theorem classifyAll_keeps_category (ms : List String) :
    ∀ (md md' : Metadata), classifyAll md ms = .ok md' →
      md'.category = md.category ∧ md'.wallet_name = md.wallet_name := by
  induction ms with
  | nil =>
    intro md md' h
    cases h
    exact ⟨rfl, rfl⟩
  | cons m rest ih =>
    intro md md' h
    unfold classifyAll at h
    rw [exceptBindOkIff] at h
    obtain ⟨md1, h1, h2⟩ := h
    have hfields : md1.category = md.category ∧ md1.wallet_name = md.wallet_name := by
      unfold classifyMetadatum at h1
      by_cases h1a : THREADNAME_STRINGS.contains m = true
      · rw [if_pos h1a] at h1
        cases h1
        exact ⟨rfl, rfl⟩
      · rw [if_neg h1a] at h1
        by_cases h1b : numerousThreadnameMatch m = true
        · rw [if_pos h1b] at h1
          cases h1
          exact ⟨rfl, rfl⟩
        · rw [if_neg h1b] at h1
          cases hsl : sourcelocationMatch m with
          | some q =>
            obtain ⟨f, n⟩ := q
            simp only [hsl] at h1
            cases h1
            exact ⟨rfl, rfl⟩
          | none =>
            simp only [hsl] at h1
            by_cases h1c : functionnameMatch m = true
            · rw [if_pos h1c] at h1
              cases h1
              exact ⟨rfl, rfl⟩
            · rw [if_neg h1c] at h1
              cases h1
    obtain ⟨hc, hw⟩ := ih md1 md' h2
    exact ⟨hc.trans hfields.1, hw.trans hfields.2⟩

/-- Each successful disambiguation carries a category. -/
theorem disambiguate_ok_category (t : String) (ms : List String)
    (md : Metadata) (h : disambiguate t ms = .ok md) :
    md.category.isSome := by
  unfold disambiguate at h
  rw [exceptBindOkIff] at h
  obtain ⟨⟨rs, ms1⟩, -, h⟩ := h
  cases hc1 : logcategoryMatch rs with
  | some p =>
    obtain ⟨c, lv⟩ := p
    simp only [hc1] at h
    have := (classifyAll_keeps_category ms1 _ md h).1
    simp [this]
  | none =>
    simp only [hc1] at h
    rw [exceptBindOkIff] at h
    obtain ⟨⟨rs2, ms2⟩, -, h⟩ := h
    cases hc2 : logcategoryMatch rs2 with
    | some p =>
      obtain ⟨c, lv⟩ := p
      simp only [hc2] at h
      have := (classifyAll_keeps_category ms2 _ md h).1
      simp [this]
    | none => simp [hc2] at h

/-- C10: a line whose metadata prefix holds exactly one bracket group that
is not a valid category makes the disambiguator treat it as a wallet name
and pop the next-rightmost group from an *empty* list — an `IndexError`
that aborts processing of the line (and, uncaught, the run); consequently a
successfully parsed line never carries a `wallet_name` without a
`category`. -/
theorem c10_single_group_wallet_needs_category :
    (∀ (line : String) (t rem g body : List Char),
        splitOnChar ' ' line.data = some (t, rem) →
        metadataSplit rem = ([g], body) →
        logcategoryMatch (String.mk g) = none →
        process_line_metadata line = .error .indexError) ∧
    (∀ (line : String) (e : LogEntry) (md : Metadata),
        process_line_metadata line = .ok e →
        e.metadata = some md →
        md.wallet_name.isSome → md.category.isSome) := by
  constructor
  · intro line t rem g body hsp hms hcat
    simp [process_line_metadata, processLineChars, hsp, hms, disambiguate,
          pyPop, hcat]
  · intro line e md hok hmd hw
    unfold process_line_metadata processLineChars at hok
    cases hsp : splitOnChar ' ' line.data with
    | none =>
      simp only [hsp] at hok
      cases hok
      simp at hmd
    | some p =>
      obtain ⟨t, rem⟩ := p
      simp only [hsp] at hok
      cases hgs : (metadataSplit rem).1 with
      | nil =>
        rw [hgs] at hok
        cases hok
        simp only [Option.some.injEq] at hmd
        subst hmd
        simp at hw
      | cons g gs =>
        rw [hgs] at hok
        rw [exceptBindOkIff] at hok
        obtain ⟨md1, hd, hok⟩ := hok
        cases hok
        simp only [Option.some.injEq] at hmd
        subst hmd
        exact disambiguate_ok_category _ _ _ hd

/-- Witness for C10: the line `T [notacat] body` (one group, not a
category) raises `IndexError`; the wallet-carrying line
`T [all:info] [Waleto] body` parses with a category present. -/
theorem c10_witness :
    process_line_metadata "T [notacat] body" = .error .indexError ∧
    ({ time_str := "T", category := some "all", loglevel := some "info",
       wallet_name := some "Waleto" } : Metadata).category.isSome :=
  ⟨c10_single_group_wallet_needs_category.1 "T [notacat] body"
     "T".data "[notacat] body".data "notacat".data "body".data rfl rfl rfl,
   c10_single_group_wallet_needs_category.2 "T [all:info] [Waleto] body"
     { metadata := some { time_str := "T", category := some "all",
                          loglevel := some "info",
                          wallet_name := some "Waleto" },
       body := some "body", data := [] }
     { time_str := "T", category := some "all", loglevel := some "info",
       wallet_name := some "Waleto" }
     rfl rfl (by decide)⟩

/-- The timestamp token produced by the first-space split contains no
separator. -/
theorem splitOnChar_no_sep (sep : Char) :
    ∀ (cs t r : List Char), splitOnChar sep cs = some (t, r) →
      ∀ c ∈ t, c ≠ sep := by
  intro cs
  induction cs with
  | nil =>
    intro t r h
    simp [splitOnChar] at h
  | cons c cs ih =>
    intro t r h
    unfold splitOnChar at h
    by_cases hc : c = sep
    · rw [if_pos hc] at h
      cases h
      simp
    · rw [if_neg hc] at h
      cases hrec : splitOnChar sep cs with
      | none => simp [hrec] at h
      | some p =>
        obtain ⟨t1, r1⟩ := p
        simp only [hrec, Option.map_some, Option.some.injEq, Prod.mk.injEq] at h
        obtain ⟨rfl, rfl⟩ := h
        intro x hx
        rcases List.mem_cons.mp hx with rfl | hx1
        · exact hc
        · exact ih t1 r1 hrec x hx1

/-- First-space split of a rebuilt `t ++ sep ++ r` line. -/
theorem splitOnChar_render (sep : Char) :
    ∀ (t r : List Char), (∀ c ∈ t, c ≠ sep) →
      splitOnChar sep (t ++ sep :: r) = some (t, r) := by
  intro t
  induction t with
  | nil =>
    intro r _
    simp [splitOnChar]
  | cons c t ih =>
    intro r h
    have hc : c ≠ sep := h c (List.mem_cons_self c t)
    simp only [List.cons_append, splitOnChar, if_neg hc, List.append_eq]
    rw [ih r (fun x hx => h x (List.mem_cons_of_mem c hx))]

/-- Whitespace skipping is idempotent. -/
theorem dropWs_idem (cs : List Char) : dropWs (dropWs cs) = dropWs cs := by
  induction cs with
  | nil => rfl
  | cons c cs ih =>
    by_cases h : isPySpace c = true
    · simp [dropWs, h, ih]
    · simp [dropWs, h]

/-- Whitespace skipping does not lengthen the input. -/
theorem dropWs_length (cs : List Char) : (dropWs cs).length ≤ cs.length := by
  induction cs with
  | nil => simp [dropWs]
  | cons c cs ih =>
    by_cases h : isPySpace c = true
    · simp only [dropWs, if_pos h]
      exact Nat.le_succ_of_le ih
    · simp [dropWs, h]

/-- The head of a non-empty `dropWhile` residue fails the predicate. -/
theorem dropWhile_cons_head (p : Char → Bool) :
    ∀ (l : List Char) (d : Char) (r : List Char),
      l.dropWhile p = d :: r → p d = false := by
  intro l
  induction l with
  | nil =>
    intro d r h
    simp [List.dropWhile] at h
  | cons c cs ih =>
    intro d r h
    by_cases hc : p c = true
    · simp only [List.dropWhile, hc] at h
      exact ih d r h
    · have hc' : p c = false := by simpa using hc
      simp only [List.dropWhile, hc'] at h
      obtain ⟨rfl, -⟩ := List.cons.injEq .. ▸ h
      exact hc'

/-- `takeWhile`/`dropWhile` over a block of satisfying characters followed
by a failing one. -/
theorem takeDropWhile_append (p : Char → Bool) :
    ∀ (g : List Char) (d : Char) (r : List Char),
      (∀ c ∈ g, p c = true) → p d = false →
      (g ++ d :: r).takeWhile p = g ∧ (g ++ d :: r).dropWhile p = d :: r := by
  intro g
  induction g with
  | nil =>
    intro d r _ hd
    simp [List.takeWhile, List.dropWhile, hd]
  | cons c g ih =>
    intro d r hg hd
    have hc : p c = true := hg c (List.mem_cons_self c g)
    have hrest := ih d r (fun x hx => hg x (List.mem_cons_of_mem c hx)) hd
    simp only [List.cons_append, List.takeWhile, List.dropWhile, hc,
               List.append_eq]
    exact ⟨by rw [hrest.1], hrest.2⟩

/-- A successful bracket-group parse decomposes its input. -/
theorem parseGroup_sound (cs g rest : List Char)
    (h : parseGroup cs = some (g, rest)) :
    g ≠ [] ∧ (∀ c ∈ g, c ≠ ']') ∧ cs = '[' :: g ++ ']' :: rest := by
  cases cs with
  | nil => simp [parseGroup] at h
  | cons c cs' =>
    simp only [parseGroup] at h
    by_cases hc : c = '['
    · rw [if_pos hc] at h
      subst hc
      cases hdw : cs'.dropWhile notRBracket with
      | nil => simp [hdw] at h
      | cons d rest' =>
        have hd : d = ']' := by
          have := dropWhile_cons_head _ cs' d rest' hdw
          simpa [notRBracket] using this
        subst hd
        simp only [hdw] at h
        by_cases ht : cs'.takeWhile notRBracket = []
        · simp [ht] at h
        · rw [if_neg ht] at h
          simp only [Option.some.injEq, Prod.mk.injEq] at h
          obtain ⟨rfl, rfl⟩ := h
          refine ⟨ht, ?_, ?_⟩
          · intro x hx
            have := List.mem_takeWhile_imp hx
            simpa [notRBracket] using this
          · have hsplit : cs' =
                List.takeWhile notRBracket cs' ++ ']' :: rest' := by
              conv_lhs => rw [← List.takeWhile_append_dropWhile
                (p := notRBracket) (l := cs')]
              rw [hdw]
            rw [List.cons_append, ← hsplit]
    · rw [if_neg hc] at h
      cases h

/-- A successful bracket-group parse consumes at least two characters
beyond the rest. -/
theorem parseGroup_some_length (cs g rest : List Char)
    (h : parseGroup cs = some (g, rest)) :
    rest.length + 2 ≤ cs.length := by
  obtain ⟨hne, -, rfl⟩ := parseGroup_sound cs g rest h
  have h1 : 1 ≤ g.length := List.length_pos.mpr hne
  simp only [List.cons_append, List.length_cons, List.length_append]
  omega

/-- Parsing a rebuilt bracket group. -/
theorem parseGroup_render (g rest : List Char) (hne : g ≠ [])
    (hmem : ∀ c ∈ g, c ≠ ']') :
    parseGroup ('[' :: g ++ ']' :: rest) = some (g, rest) := by
  have hp : ∀ c ∈ g, notRBracket c = true := by
    intro c hc
    simpa [notRBracket] using hmem c hc
  have hd : notRBracket ']' = false := by simp [notRBracket]
  obtain ⟨h1, h2⟩ := takeDropWhile_append _ g ']' rest hp hd
  simp only [parseGroup, List.cons_append, h1, h2, if_neg hne]
  simp

/-- Leading whitespace is transparent to the metadata split. -/
theorem metadataSplitF_ws (fuel : Nat) (c : Char) (cs : List Char)
    (h : isPySpace c = true) :
    metadataSplitF fuel (c :: cs) = metadataSplitF fuel cs := by
  cases fuel <;> simp [metadataSplitF, dropWs, h]

/-- With sufficient fuel, the metadata split returns well-formed groups
(non-empty, bracket-free) and a body that neither begins with whitespace
nor with a parseable bracket group. -/
theorem metadataSplitF_wf :
    ∀ (fuel : Nat) (cs : List Char) (gs : List (List Char)) (body : List Char),
      cs.length ≤ fuel → metadataSplitF fuel cs = (gs, body) →
      (∀ g ∈ gs, g ≠ [] ∧ ∀ c ∈ g, c ≠ ']') ∧
        dropWs body = body ∧ parseGroup body = none := by
  intro fuel
  induction fuel with
  | zero =>
    intro cs gs body hlen h
    have hnil : cs = [] := List.length_eq_zero.mp (Nat.le_zero.mp hlen)
    subst hnil
    simp only [metadataSplitF, dropWs] at h
    obtain ⟨rfl, rfl⟩ := Prod.mk.injEq .. ▸ h
    exact ⟨by simp, rfl, by simp [parseGroup]⟩
  | succ fuel ih =>
    intro cs gs body hlen h
    unfold metadataSplitF at h
    cases hpg : parseGroup (dropWs cs) with
    | none =>
      simp only [hpg] at h
      obtain ⟨rfl, rfl⟩ := Prod.mk.injEq .. ▸ h
      exact ⟨by simp, dropWs_idem cs, hpg⟩
    | some p =>
      obtain ⟨g, rest⟩ := p
      simp only [hpg] at h
      obtain ⟨hg1, hg2, -⟩ := parseGroup_sound _ _ _ hpg
      have hrest : rest.length ≤ fuel := by
        have ha := parseGroup_some_length _ _ _ hpg
        have hb := dropWs_length cs
        omega
      obtain ⟨hgs', hb1, hb2⟩ :=
        ih rest (metadataSplitF fuel rest).1 (metadataSplitF fuel rest).2
          hrest rfl
      obtain ⟨rfl, rfl⟩ := Prod.mk.injEq .. ▸ h
      refine ⟨?_, hb1, hb2⟩
      intro g' hg'
      rcases List.mem_cons.mp hg' with rfl | hmem
      · exact ⟨hg1, hg2⟩
      · exact hgs' g' hmem

/-- There are at least as many rendered characters as groups. -/
theorem renderGroups_length (gs : List (List Char)) (body : List Char) :
    gs.length ≤ (renderGroups gs body).length := by
  induction gs with
  | nil => simp [renderGroups]
  | cons g gs ih =>
    simp only [renderGroups, List.length_cons, List.length_append]
    omega

/-- Re-splitting a canonically rendered metadata prefix and body recovers
exactly the groups and the body. -/
theorem metadataSplitF_render :
    ∀ (gs : List (List Char)) (body : List Char),
      (∀ g ∈ gs, g ≠ [] ∧ ∀ c ∈ g, c ≠ ']') →
      dropWs body = body → parseGroup body = none →
      ∀ fuel, gs.length ≤ fuel →
        metadataSplitF fuel (renderGroups gs body) = (gs, body) := by
  intro gs
  induction gs with
  | nil =>
    intro body hg hb1 hb2 fuel hlen
    cases fuel with
    | zero => simp [metadataSplitF, renderGroups, hb1]
    | succ f => simp [metadataSplitF, renderGroups, hb1, hb2]
  | cons g gs ih =>
    intro body hg hb1 hb2 fuel hlen
    cases fuel with
    | zero => simp at hlen
    | succ f =>
      have hgg := hg g (List.mem_cons_self g gs)
      have hdw : dropWs ('[' :: (g ++ ']' :: ' ' :: renderGroups gs body)) =
          '[' :: (g ++ ']' :: ' ' :: renderGroups gs body) := by
        simp [dropWs, isPySpace]
      have hpg := parseGroup_render g (' ' :: renderGroups gs body)
        hgg.1 hgg.2
      have hws := metadataSplitF_ws f ' ' (renderGroups gs body)
        (by simp [isPySpace])
      have hih := ih body (fun g' hm => hg g' (List.mem_cons_of_mem g hm))
        hb1 hb2 f (by simp only [List.length_cons] at hlen; omega)
      unfold renderGroups metadataSplitF
      rw [hdw]
      rw [show ('[' : Char) :: (g ++ ']' :: ' ' :: renderGroups gs body) =
            '[' :: g ++ ']' :: ' ' :: renderGroups gs body from by
        simp]
      simp only [hpg, hws, hih]

/-- `metadataSplit` round-trips on rendered output. -/
theorem metadataSplit_render (gs : List (List Char)) (body : List Char)
    (hg : ∀ g ∈ gs, g ≠ [] ∧ ∀ c ∈ g, c ≠ ']')
    (hb1 : dropWs body = body) (hb2 : parseGroup body = none) :
    metadataSplit (renderGroups gs body) = (gs, body) :=
  metadataSplitF_render gs body hg hb1 hb2 _ (renderGroups_length gs body)

/-- The facts `metadataSplit` guarantees about its own output. -/
theorem metadataSplit_wf (cs : List Char) (gs : List (List Char))
    (body : List Char) (h : metadataSplit cs = (gs, body)) :
    (∀ g ∈ gs, g ≠ [] ∧ ∀ c ∈ g, c ≠ ']') ∧
      dropWs body = body ∧ parseGroup body = none :=
  metadataSplitF_wf cs.length cs gs body le_rfl h

/-- C7: tokenization plus disambiguation is idempotent.  For every line the
pipeline parses successfully, re-rendering it canonically as
`timestamp + " " + "[g1] [g2] ... " + body` and running the tokenizer and
disambiguator again returns the identical `LogEntry` — the same `Metadata`
(timestamp, category, loglevel, thread, source file/line, function, wallet
name) and the same body. -/
theorem c7_retokenize_idempotent (line : String) (t rem body : List Char)
    (gs : List (List Char)) (e : LogEntry)
    (hsp : splitOnChar ' ' line.data = some (t, rem))
    (hms : metadataSplit rem = (gs, body))
    (hok : process_line_metadata line = .ok e) :
    process_line_metadata (reassembleLine t gs body) = .ok e := by
  obtain ⟨hg, hb1, hb2⟩ := metadataSplit_wf rem gs body hms
  have hns : ∀ c ∈ t, c ≠ ' ' := splitOnChar_no_sep ' ' line.data t rem hsp
  have hsp2 : splitOnChar ' ' (reassembleLine t gs body).data
      = some (t, renderGroups gs body) := by
    show splitOnChar ' ' (t ++ ' ' :: renderGroups gs body) = _
    exact splitOnChar_render ' ' t (renderGroups gs body) hns
  have hms2 : metadataSplit (renderGroups gs body) = (gs, body) :=
    metadataSplit_render gs body hg hb1 hb2
  unfold process_line_metadata processLineChars at hok ⊢
  simp only [hsp2, hms2]
  simp only [hsp, hms] at hok
  exact hok

/-- Witness for C7: a line with irregular spacing and a stray `[` in its
body re-tokenizes, after canonical re-rendering, to the identical entry. -/
theorem c7_witness :
    process_line_metadata
      (reassembleLine "T1".data ["msghand".data, "net:debug".data]
        "hello [world".data)
      = .ok { metadata := some { time_str := "T1", category := some "net",
                                 thread := some "msghand",
                                 loglevel := some "debug" },
              body := some "hello [world", data := [] } :=
  c7_retokenize_idempotent "T1  [msghand]  [net:debug]   hello [world"
    "T1".data " [msghand]  [net:debug]   hello [world".data
    "hello [world".data ["msghand".data, "net:debug".data]
    { metadata := some { time_str := "T1", category := some "net",
                         thread := some "msghand",
                         loglevel := some "debug" },
      body := some "hello [world", data := [] }
    rfl rfl rfl
